import Mathlib

/-!
Shallow embedding of the `gcdm` package (generalized-cost / QSI+ engine) and
proofs about its risk, aggregation, travel-time, scheduling and itinerary-scoring
functions.

Numeric modelling: Python floats are modelled exactly, by `ℚ` where the source
is rational arithmetic (risk engine, provider aggregation, travel-time tiers,
schedule windows) and by `ℝ` where the source applies `exp`/`log`
(softmin, QSI factors).  External effects (provider API calls, the OSMnx road
network, random draws from the global numpy generator) are passed in as
explicit arguments, so every embedded function is a pure function of the same
data the Python function consumes.
-/

namespace GCDM

/-! ### Risk engine: src/gcdm/risk.py -/

/-- Embedding of `np.quantile(l, q)` with the default linear interpolation:
with `s` the ascending sort of `l`, `h = (len-1)·q`, the result is
`s[⌊h⌋] + (h-⌊h⌋)·(s[⌊h⌋+1] - s[⌊h⌋])`.  Meaningful for nonempty `l` and
`q ∈ [0,1]`, matching every call site in the source. -/
def npQuantile (l : List ℚ) (q : ℚ) : ℚ :=
  let s := l.insertionSort (· ≤ ·)
  let h : ℚ := ((l.length : ℚ) - 1) * q
  let i : ℕ := (⌊h⌋).toNat
  let g : ℚ := h - (i : ℚ)
  s.getD i 0 + g * (s.getD (i + 1) (s.getD i 0) - s.getD i 0)

/-- Embedding of `risk.cvar(samples, alpha)`: `0.0` on an empty array, else the
mean of the samples at or above the `alpha`-quantile, or the quantile itself
when that tail is empty. -/
def cvar (samples : List ℚ) (alpha : ℚ) : ℚ :=
  if samples = [] then 0
  else
    let q := npQuantile samples alpha
    let tail := samples.filter (fun x => q ≤ x)
    if tail = [] then q else tail.sum / (tail.length : ℚ)

/-- Embedding of `risk.cvar_minus_mean(samples, alpha)`: `0.0` on an empty
array, else `cvar(samples, alpha) - mean(samples)`. -/
def cvar_minus_mean (samples : List ℚ) (alpha : ℚ) : ℚ :=
  if samples = [] then 0
  else cvar samples alpha - samples.sum / (samples.length : ℚ)

/-- Embedding of `risk.apply_shocks(samples, shock_prob, shock_minutes)`.
The list `u` is the realization of the `np.random.rand(samples.shape[0])`
draws from the global generator, passed explicitly; the mask is `uᵢ < prob`
and masked samples get `shock_minutes` added.  With `prob ≤ 0` or
`minutes ≤ 0` the samples are returned unchanged. -/
def apply_shocks (u : List ℚ) (samples : List ℚ) (shock_prob shock_minutes : ℚ) : List ℚ :=
  if shock_prob ≤ 0 ∨ shock_minutes ≤ 0 then samples
  else List.zipWith (fun ui s => if ui < shock_prob then s + shock_minutes else s) u samples

/-- Risk slice of the application config (`cfg.risk`): tail quantile `alpha`,
risk aversion `rho`, and the `shocks` dict read with `.get(key, 0.0)`. -/
structure RiskConfig where
  alpha : ℚ
  rho : ℚ
  shocks : List (String × ℚ)

/-- Embedding of the Python `dict.get(key, 0.0)` on the shocks table. -/
def shockGet (shocks : List (String × ℚ)) (key : String) : ℚ :=
  (shocks.lookup key).getD 0

/-- Embedding of `risk.risk_with_shocks(cfg, A_samples, P_samples)`: shocks the
access and process sample vectors with their configured probabilities and
magnitudes (draw realizations `uA`, `uP`), takes `cvar - mean` of each, sums
and scales by `rho`. -/
def risk_with_shocks (cfg : RiskConfig) (uA uP : List ℚ)
    (A_samples P_samples : List ℚ) : ℚ :=
  let A_shocked := apply_shocks uA A_samples
    (shockGet cfg.shocks "incident_prob") (shockGet cfg.shocks "incident_minutes")
  let P_shocked := apply_shocks uP P_samples
    (shockGet cfg.shocks "rail_disruption_prob") (shockGet cfg.shocks "rail_disruption_minutes")
  cfg.rho * (cvar_minus_mean A_shocked cfg.alpha + cvar_minus_mean P_shocked cfg.alpha)

/-! ### Helper lemmas: concrete quantile and CVaR evaluations -/

lemma npQuantile_zero_hundred : npQuantile [0, 100] (1/2) = 50 := by
  have hf : ⌊((2:ℚ) - 1) * (1/2)⌋ = 0 := by rw [Int.floor_eq_iff]; norm_num
  simp only [npQuantile, List.insertionSort, List.orderedInsert, List.length]
  norm_num [hf]

lemma npQuantile_fifty_hundred : npQuantile [50, 100] (1/2) = 75 := by
  have hf : ⌊((2:ℚ) - 1) * (1/2)⌋ = 0 := by rw [Int.floor_eq_iff]; norm_num
  simp only [npQuantile, List.insertionSort, List.orderedInsert, List.length]
  norm_num [hf]

lemma npQuantile_tens : npQuantile [10, 10, 10] (3/4) = 10 := by
  have hf : ⌊((3:ℚ) - 1) * (3/4)⌋ = 1 := by rw [Int.floor_eq_iff]; norm_num
  simp only [npQuantile, List.insertionSort, List.orderedInsert, List.length]
  norm_num [hf]

lemma cvar_zero_hundred : cvar [0, 100] (1/2) = 100 := by
  rw [cvar]
  norm_num [npQuantile_zero_hundred, List.filter]
  simp

lemma cvar_fifty_hundred : cvar [50, 100] (1/2) = 100 := by
  rw [cvar]
  norm_num [npQuantile_fifty_hundred, List.filter]
  simp

lemma cvar_minus_mean_zero_hundred : cvar_minus_mean [0, 100] (1/2) = 50 := by
  rw [cvar_minus_mean]
  norm_num [cvar_zero_hundred]
  simp

lemma cvar_minus_mean_fifty_hundred : cvar_minus_mean [50, 100] (1/2) = 25 := by
  rw [cvar_minus_mean]
  norm_num [cvar_fifty_hundred]
  simp

/-! ### Helper lemmas: pointwise ordering of shocked sample vectors -/

lemma forall2_le_refl (l : List ℚ) : List.Forall₂ (· ≤ ·) l l := by
  induction l with
  | nil => exact List.Forall₂.nil
  | cons x xs ih => exact List.Forall₂.cons le_rfl ih

lemma forall2_le_zipWith_shock (p m : ℚ) (hm : 0 ≤ m) :
    ∀ u s : List ℚ, u.length = s.length →
      List.Forall₂ (· ≤ ·) s (List.zipWith (fun ui x => if ui < p then x + m else x) u s) := by
  intro u
  induction u with
  | nil =>
    intro s hs
    cases s with
    | nil => exact List.Forall₂.nil
    | cons b s₂ => simp at hs
  | cons a u ih =>
    intro s hs
    cases s with
    | nil => simp at hs
    | cons b s₂ =>
      simp only [List.zipWith]
      refine List.Forall₂.cons ?_ (ih s₂ (by simpa using hs))
      by_cases hc : a < p
      · simp only [if_pos hc]; linarith
      · simp only [if_neg hc]; exact le_rfl

lemma forall2_zipWith_mono (f g : ℚ → ℚ → ℚ) (h : ∀ a b, f a b ≤ g a b) :
    ∀ u s : List ℚ, List.Forall₂ (· ≤ ·) (List.zipWith f u s) (List.zipWith g u s) := by
  intro u
  induction u with
  | nil => intro s; simp [List.zipWith]
  | cons a u ih =>
    intro s
    cases s with
    | nil => simp [List.zipWith]
    | cons b s₂ =>
      simp only [List.zipWith]
      exact List.Forall₂.cons (h a b) (ih s₂)

/-! ### Claim C10 -/

/-- C10: for every alpha, `cvar` applied to an empty sample array returns 0.0
rather than raising, and `cvar_minus_mean` likewise returns 0.0 on empty
input. -/
theorem claim_C10_cvar_empty : ∀ alpha : ℚ, cvar [] alpha = 0 ∧ cvar_minus_mean [] alpha = 0 :=
  fun _ => ⟨rfl, rfl⟩

/-! ### Claim C4 -/

/-- Shock configuration with incident probability 0, used as the baseline of
the C4 counterexample: alpha = 1/2, rho = 1, incident shock magnitude 50. -/
def cfgNoShock : RiskConfig := ⟨1/2, 1, [("incident_prob", 0), ("incident_minutes", 50)]⟩

/-- Same configuration as `cfgNoShock` except the incident probability is
raised from 0 to 1/2. -/
def cfgShock : RiskConfig := ⟨1/2, 1, [("incident_prob", 1/2), ("incident_minutes", 50)]⟩

/-- C4 counterexample: with access samples `[0, 100]`, fixed uniform draws
`[3/10, 9/10]`, empty process samples and all other configuration equal,
raising the incident shock probability from 0 to 1/2 makes
`risk_with_shocks` strictly DECREASE (from 50 to 25): the shock lands on the
below-median sample, raising the mean more than the tail mean, so the claimed
monotonicity in shock probability is false. -/
theorem claim_C4_counterexample :
    shockGet cfgNoShock.shocks "incident_prob" < shockGet cfgShock.shocks "incident_prob" ∧
    shockGet cfgNoShock.shocks "incident_minutes" = shockGet cfgShock.shocks "incident_minutes" ∧
    cfgNoShock.alpha = cfgShock.alpha ∧ cfgNoShock.rho = cfgShock.rho ∧
    risk_with_shocks cfgShock [3/10, 9/10] [] [0, 100] [] <
      risk_with_shocks cfgNoShock [3/10, 9/10] [] [0, 100] [] := by
  refine ⟨by norm_num [shockGet, cfgNoShock, cfgShock], rfl, rfl, rfl, ?_⟩
  have hshocked : apply_shocks [3/10, 9/10] [0, 100] (1/2) 50 = [50, 100] := by
    rw [apply_shocks]
    norm_num [List.zipWith]
  have hunshocked : apply_shocks [3/10, 9/10] [0, 100] 0 50 = [0, 100] := by
    rw [apply_shocks]; norm_num
  have hemp : cvar_minus_mean (apply_shocks [] [] 0 0) (1/2) = 0 := by
    simp [apply_shocks, cvar_minus_mean]
  have h1 : risk_with_shocks cfgShock [3/10, 9/10] [] [0, 100] [] = 25 := by
    have hp : shockGet [("incident_prob", (1:ℚ)/2), ("incident_minutes", 50)] "incident_prob" = 1/2 := rfl
    have hm : shockGet [("incident_prob", (1:ℚ)/2), ("incident_minutes", 50)] "incident_minutes" = 50 := rfl
    have hrp : shockGet [("incident_prob", (1:ℚ)/2), ("incident_minutes", 50)] "rail_disruption_prob" = 0 := rfl
    have hrm : shockGet [("incident_prob", (1:ℚ)/2), ("incident_minutes", 50)] "rail_disruption_minutes" = 0 := rfl
    simp only [cfgShock, risk_with_shocks, hp, hm, hrp, hrm, hshocked, hemp,
      cvar_minus_mean_fifty_hundred]
    norm_num
  have h2 : risk_with_shocks cfgNoShock [3/10, 9/10] [] [0, 100] [] = 50 := by
    have hp : shockGet [("incident_prob", (0:ℚ)), ("incident_minutes", 50)] "incident_prob" = 0 := rfl
    have hm : shockGet [("incident_prob", (0:ℚ)), ("incident_minutes", 50)] "incident_minutes" = 50 := rfl
    have hrp : shockGet [("incident_prob", (0:ℚ)), ("incident_minutes", 50)] "rail_disruption_prob" = 0 := rfl
    have hrm : shockGet [("incident_prob", (0:ℚ)), ("incident_minutes", 50)] "rail_disruption_minutes" = 0 := rfl
    simp only [cfgNoShock, risk_with_shocks, hp, hm, hrp, hrm, hunshocked, hemp,
      cvar_minus_mean_zero_hundred]
    norm_num
  rw [h1, h2]; norm_num

/-- C4 amended: with the random draws fixed, the SHOCKED SAMPLE VECTOR
produced by `apply_shocks` is pointwise monotonically non-decreasing in the
shock probability and in the shock magnitude; the scalar `risk_with_shocks`
(a CVaR-minus-mean functional of those samples) is not monotone. -/
theorem claim_C4_amended (u samples : List ℚ) (p₁ p₂ m₁ m₂ : ℚ)
    (hlen : u.length = samples.length) (hp : p₁ ≤ p₂) (hm : m₁ ≤ m₂) :
    List.Forall₂ (· ≤ ·) (apply_shocks u samples p₁ m₁) (apply_shocks u samples p₂ m₁) ∧
    List.Forall₂ (· ≤ ·) (apply_shocks u samples p₁ m₁) (apply_shocks u samples p₁ m₂) := by
  constructor
  · by_cases hm1 : m₁ ≤ 0
    · rw [apply_shocks, if_pos (Or.inr hm1), apply_shocks, if_pos (Or.inr hm1)]
      exact forall2_le_refl samples
    · push_neg at hm1
      by_cases hp1 : p₁ ≤ 0
      · rw [apply_shocks, if_pos (Or.inl hp1)]
        by_cases hp2 : p₂ ≤ 0
        · rw [apply_shocks, if_pos (Or.inl hp2)]
          exact forall2_le_refl samples
        · rw [apply_shocks, if_neg (by push_neg at hp2 ⊢; exact ⟨hp2, hm1⟩)]
          exact forall2_le_zipWith_shock p₂ m₁ hm1.le u samples hlen
      · push_neg at hp1
        have hp2 : ¬ p₂ ≤ 0 := by push_neg; linarith
        push_neg at hp2
        rw [apply_shocks, if_neg (by push_neg; exact ⟨hp1, hm1⟩),
            apply_shocks, if_neg (by push_neg; exact ⟨hp2, hm1⟩)]
        refine forall2_zipWith_mono _ _ ?_ u samples
        intro a b
        by_cases hc : a < p₁
        · rw [if_pos hc, if_pos (lt_of_lt_of_le hc hp)]
        · rw [if_neg hc]
          by_cases hc2 : a < p₂
          · rw [if_pos hc2]; linarith
          · rw [if_neg hc2]
  · by_cases hp1 : p₁ ≤ 0
    · rw [apply_shocks, if_pos (Or.inl hp1), apply_shocks, if_pos (Or.inl hp1)]
      exact forall2_le_refl samples
    · push_neg at hp1
      by_cases hm1 : m₁ ≤ 0
      · rw [apply_shocks, if_pos (Or.inr hm1)]
        by_cases hm2 : m₂ ≤ 0
        · rw [apply_shocks, if_pos (Or.inr hm2)]
          exact forall2_le_refl samples
        · push_neg at hm2
          rw [apply_shocks, if_neg (by push_neg; exact ⟨hp1, hm2⟩)]
          exact forall2_le_zipWith_shock p₁ m₂ hm2.le u samples hlen
      · push_neg at hm1
        have hm2 : (0:ℚ) < m₂ := lt_of_lt_of_le hm1 hm
        rw [apply_shocks, if_neg (by push_neg; exact ⟨hp1, hm1⟩),
            apply_shocks, if_neg (by push_neg; exact ⟨hp1, hm2⟩)]
        refine forall2_zipWith_mono _ _ ?_ u samples
        intro a b
        by_cases hc : a < p₁
        · rw [if_pos hc, if_pos hc]; linarith
        · rw [if_neg hc, if_neg hc]

/-- C4 amended, witness: the pointwise monotonicity instantiated at the
concrete draws `[3/10, 9/10]`, samples `[0, 100]`, probabilities 0 ≤ 1/2 and
magnitudes 1 ≤ 50. -/
theorem claim_C4_amended_witness :
    List.Forall₂ (· ≤ ·) (apply_shocks [3/10, 9/10] [0, 100] 0 1)
      (apply_shocks [3/10, 9/10] [0, 100] (1/2) 1) ∧
    List.Forall₂ (· ≤ ·) (apply_shocks [3/10, 9/10] [0, 100] 0 1)
      (apply_shocks [3/10, 9/10] [0, 100] 0 50) :=
  claim_C4_amended [3/10, 9/10] [0, 100] 0 (1/2) 1 50 rfl (by norm_num) (by norm_num)

/-! ### Provider aggregation: src/gcdm/aggregators.py -/

/-- Result of one provider call after its bounded-retry wrapper: either the
call returned (possibly `None`, which the Python type allows), or every retry
raised and `ProviderError` escaped to the aggregation loop. -/
inductive ProviderOutcome where
  | ok : Option ℚ → ProviderOutcome
  | err : ProviderOutcome
deriving DecidableEq

/-- Embedding of `aggregators.ProviderConfig`. -/
structure ProviderConfig where
  enable_google : Bool
  enable_openrouteservice : Bool
  enable_weather : Bool
  enable_events : Bool
  enable_mapbox : Bool
  google_api_key : String
  ors_api_key : String
  owm_api_key : String
  ticketmaster_api_key : String
  mapbox_api_key : String

/-- The outcomes of the three routing-provider calls for one origin/dest
pair, passed in explicitly in place of the network I/O. -/
structure ProviderOutcomes where
  google : ProviderOutcome
  ors : ProviderOutcome
  mapbox : ProviderOutcome

/-- One guarded collection step of `aggregate_drive_minutes`: the provider is
consulted only when its enable flag is set and its API key is a nonempty
string; a raised `ProviderError` is swallowed; a returned value `v` is kept
only when `if v:` holds in Python, i.e. when it is non-`None` AND nonzero. -/
def tryProvider (enabled : Bool) (key : String) (outcome : ProviderOutcome) : List ℚ :=
  if enabled = true ∧ key ≠ "" then
    match outcome with
    | .ok (some v) => if v ≠ 0 then [v] else []
    | .ok none => []
    | .err => []
  else []

/-- The `vals` list built by `aggregate_drive_minutes`, in source order:
google, openrouteservice, mapbox. -/
def providerVals (p : ProviderConfig) (o : ProviderOutcomes) : List ℚ :=
  tryProvider p.enable_google p.google_api_key o.google
    ++ tryProvider p.enable_openrouteservice p.ors_api_key o.ors
    ++ tryProvider p.enable_mapbox p.mapbox_api_key o.mapbox

/-- Embedding of `aggregators.aggregate_drive_minutes`: `None` when no value
was collected, else the 75th percentile (`np.quantile(vals, 0.75)`) of the
collected values. -/
def aggregate_drive_minutes (p : ProviderConfig) (o : ProviderOutcomes) : Option ℚ :=
  let vals := providerVals p o
  if vals = [] then none
  else some (npQuantile vals (3/4))

/-- Configuration enabling only the google provider, with a key. -/
def googleOnlyCfg : ProviderConfig :=
  ⟨true, false, false, false, false, "key", "", "", "", ""⟩

/-- Outcome set in which google successfully returns the non-null estimate
`0.0` minutes and the other providers fail. -/
def zeroEstimate : ProviderOutcomes := ⟨.ok (some 0), .err, .err⟩

/-- Configuration enabling all three routing providers, each with a key. -/
def allOnCfg : ProviderConfig :=
  ⟨true, true, false, false, true, "kg", "ko", "", "", "km"⟩

/-- Outcome set in which all three providers return 10.0 minutes. -/
def tenEstimates : ProviderOutcomes := ⟨.ok (some 10), .ok (some 10), .ok (some 10)⟩

/-- Outcome set in which every provider call fails. -/
def errOutcomes : ProviderOutcomes := ⟨.err, .err, .err⟩

/-! ### Claim C2 -/

/-- C2 counterexample: the enabled google provider successfully returns the
non-null estimate 0.0, yet `aggregate_drive_minutes` returns `None` instead
of collecting it (Python `if v:` drops a zero estimate), so the aggregate is
absent where the claim requires the 75th percentile of `[0.0]`, namely 0.0. -/
theorem claim_C2_counterexample :
    googleOnlyCfg.enable_google = true ∧ googleOnlyCfg.google_api_key ≠ "" ∧
    zeroEstimate.google = .ok (some 0) ∧
    aggregate_drive_minutes googleOnlyCfg zeroEstimate = none ∧
    aggregate_drive_minutes googleOnlyCfg zeroEstimate ≠ some (npQuantile [0] (3/4)) := by
  refine ⟨rfl, by simp [googleOnlyCfg], rfl, ?_, ?_⟩ <;>
    simp [aggregate_drive_minutes, providerVals, tryProvider, googleOnlyCfg, zeroEstimate]

/-- C2 amended: `aggregate_drive_minutes` collects every successful,
non-null, NONZERO estimate of an enabled keyed provider; with no collected
estimate it returns `None` (absent, not zero and not an exception), otherwise
the 75th percentile of the collected estimates; on estimates `[10, 10, 10]`
it returns exactly 10. -/
theorem claim_C2_amended :
    (∀ p o, providerVals p o = [] → aggregate_drive_minutes p o = none) ∧
    (∀ p o, providerVals p o ≠ [] →
      aggregate_drive_minutes p o = some (npQuantile (providerVals p o) (3/4))) ∧
    providerVals allOnCfg tenEstimates = [10, 10, 10] ∧
    aggregate_drive_minutes allOnCfg tenEstimates = some 10 := by
  refine ⟨fun p o h => ?_, fun p o h => ?_, ?_, ?_⟩
  · simp only [aggregate_drive_minutes, h, if_pos]
  · simp only [aggregate_drive_minutes, if_neg h]
  · simp [providerVals, tryProvider, allOnCfg, tenEstimates]
  · have hv : providerVals allOnCfg tenEstimates = [10, 10, 10] := by
      simp [providerVals, tryProvider, allOnCfg, tenEstimates]
    simp only [aggregate_drive_minutes, hv, npQuantile_tens]
    simp

/-- C2 amended, witness: the absent branch exercised with every provider
failing, and the percentile branch exercised with the all-10 outcome. -/
theorem claim_C2_amended_witness :
    aggregate_drive_minutes googleOnlyCfg errOutcomes = none ∧
    aggregate_drive_minutes allOnCfg tenEstimates =
      some (npQuantile (providerVals allOnCfg tenEstimates) (3/4)) :=
  ⟨claim_C2_amended.1 googleOnlyCfg errOutcomes
      (by simp [providerVals, tryProvider, googleOnlyCfg, errOutcomes]),
    claim_C2_amended.2.1 allOnCfg tenEstimates
      (by simp [providerVals, tryProvider, allOnCfg, tenEstimates])⟩

/-! ### Travel-time estimation: src/gcdm/travel.py -/

/-- Embedding of `travel.TravelRV`: mean and standard deviation in minutes. -/
structure TravelRV where
  mean : ℚ
  sd : ℚ
deriving DecidableEq

/-- Embedding of `travel.estimate_drive_time_minutes`.  The fallback chain of
the source: if a provider config was passed, the provider aggregate (tier a,
`sd = max(5, 0.25·mean)`); else the OSMnx shortest-path travel time, whose
total minutes (or failure of the whole `try` block) is the explicit
`network` argument (tier b, `sd = max(5, 0.25·mean)`); else the geodesic
straight-line heuristic at 35 mph (tier c, `sd = max(5, 0.30·mean)`).
This definition is the chain after the provider aggregate `agg` has been
computed; `estimate_drive_time_minutes` below supplies `agg` exactly as the
source does. -/
def driveFallback (agg : Option ℚ) (network : Option ℚ) (geodesic_miles : ℚ) : TravelRV :=
  match agg with
  | some m => ⟨m, max 5 (1/4 * m)⟩
  | none =>
    match network with
    | some t => ⟨t, max 5 (1/4 * t)⟩
    | none =>
      let mean := geodesic_miles / 35 * 60
      ⟨mean, max 5 (3/10 * mean)⟩

/-- Embedding of `travel.estimate_drive_time_minutes`: computes the provider
aggregate when a provider config was passed (`providers is not None`), then
runs the fallback chain. -/
def estimate_drive_time_minutes (providersArg : Option (ProviderConfig × ProviderOutcomes))
    (network : Option ℚ) (geodesic_miles : ℚ) : TravelRV :=
  driveFallback
    (match providersArg with
      | some (p, o) => aggregate_drive_minutes p o
      | none => none)
    network geodesic_miles

lemma driveFallback_sd (agg network : Option ℚ) (miles : ℚ) :
    5 ≤ (driveFallback agg network miles).sd := by
  rcases agg with _ | m
  · rcases network with _ | t
    · exact le_max_left 5 _
    · exact le_max_left 5 _
  · exact le_max_left 5 _

/-- Embedding of `travel.estimate_ride_time_minutes`: the drive estimate with
mean scaled by 1.05 and sd scaled by 1.2. -/
def estimate_ride_time_minutes (providersArg : Option (ProviderConfig × ProviderOutcomes))
    (network : Option ℚ) (geodesic_miles : ℚ) : TravelRV :=
  let rv := estimate_drive_time_minutes providersArg network geodesic_miles
  ⟨rv.mean * (21/20), rv.sd * (6/5)⟩

/-- Embedding of `travel.estimate_rail_time_minutes`: geodesic distance at
30 mph, `sd = max(5, 0.20·mean)`. -/
def estimate_rail_time_minutes (geodesic_miles : ℚ) : TravelRV :=
  let mean := geodesic_miles / 30 * 60
  ⟨mean, max 5 (1/5 * mean)⟩

/-! ### Claim C7 -/

/-- C7: every TravelRV produced by the travel-time estimators (drive via any
fallback tier, rideshare, rail) has `sd ≥ 5.0`. -/
theorem claim_C7_sd_floor :
    ∀ (pa : Option (ProviderConfig × ProviderOutcomes)) (network : Option ℚ) (miles : ℚ),
      5 ≤ (estimate_drive_time_minutes pa network miles).sd ∧
      5 ≤ (estimate_ride_time_minutes pa network miles).sd ∧
      5 ≤ (estimate_rail_time_minutes miles).sd := by
  intro pa network miles
  have hdrive : 5 ≤ (estimate_drive_time_minutes pa network miles).sd :=
    driveFallback_sd _ network miles
  refine ⟨hdrive, ?_, le_max_left 5 _⟩
  show 5 ≤ (estimate_drive_time_minutes pa network miles).sd * (6/5)
  nlinarith [hdrive]

/-! ### Claim C6 -/

/-- C6: with every provider disabled and the network-routing tier
unavailable, the drive-time estimator falls back to the straight-line
heuristic: mean = miles / 35 mph × 60 minutes and sd = max(5, 0.30·mean). -/
theorem claim_C6_fallback_heuristic (p : ProviderConfig) (o : ProviderOutcomes) (miles : ℚ)
    (hg : p.enable_google = false) (ho : p.enable_openrouteservice = false)
    (_hw : p.enable_weather = false) (_he : p.enable_events = false)
    (hm : p.enable_mapbox = false) :
    estimate_drive_time_minutes (some (p, o)) none miles =
      ⟨miles / 35 * 60, max 5 (3/10 * (miles / 35 * 60))⟩ := by
  have hvals : providerVals p o = [] := by
    simp [providerVals, tryProvider, hg, ho, hm]
  have hagg : aggregate_drive_minutes p o = none := by
    simp [aggregate_drive_minutes, hvals]
  have hstep : estimate_drive_time_minutes (some (p, o)) none miles =
      driveFallback (aggregate_drive_minutes p o) none miles := rfl
  rw [hstep, hagg]
  rfl

/-- Configuration with every provider disabled and empty keys. -/
def disabledCfg : ProviderConfig :=
  ⟨false, false, false, false, false, "", "", "", "", ""⟩

/-- C6 witness: the heuristic fallback at 70 geodesic miles gives mean 120
minutes and sd max(5, 36) = 36. -/
theorem claim_C6_fallback_heuristic_witness :
    estimate_drive_time_minutes (some (disabledCfg, errOutcomes)) none 70 =
      ⟨70 / 35 * 60, max 5 (3/10 * (70 / 35 * 60))⟩ :=
  claim_C6_fallback_heuristic disabledCfg errOutcomes 70 rfl rfl rfl rfl rfl

/-! ### Schedule-window resolution: src/gcdm/model.py, generalized_cost_delta -/

/-- Embedding of the curb-window resolution in `model.generalized_cost_delta`.
Timestamps are minutes on a common clock; `t_depart = none` models
`isoparse(cfg.schedule.t_depart_iso)` raising, `curb = none` models a missing
`curb_windows[a]` entry (KeyError), and a `none` inside `curb` models one of
the window's timestamps failing to parse.  The source wraps all of this in
one `try`, so any failure yields the default `(t_depart_min, tmin_min,
tmax_min) = (0, 60, 120)`; on success `t_depart_min = 0` and the window ends
are expressed in minutes relative to the departure time.  The function is
total: no exception leaves the per-origin computation. -/
def resolve_schedule_window (t_depart : Option ℚ)
    (curb : Option (Option ℚ × Option ℚ)) : ℚ × ℚ × ℚ :=
  match t_depart, curb with
  | some d, some (some t1, some t2) => (0, t1 - d, t2 - d)
  | _, _ => (0, 60, 120)

/-! ### Claim C9 -/

/-- C9: whenever the scheduled curb-window or departure timestamps fail to
parse (any parse result absent), the generalized-cost computation proceeds
with the default window: relative depart time 0, tmin = 60, tmax = 120. -/
theorem claim_C9_default_window :
    ∀ (td : Option ℚ) (curb : Option (Option ℚ × Option ℚ)),
      (td = none ∨ curb = none ∨ ∃ w, curb = some w ∧ (w.1 = none ∨ w.2 = none)) →
      resolve_schedule_window td curb = (0, 60, 120) := by
  intro td curb h
  rcases td with _ | d
  · rcases curb with _ | ⟨_ | t1, _ | t2⟩ <;> rfl
  · rcases curb with _ | ⟨_ | t1, _ | t2⟩
    · rfl
    · rfl
    · rfl
    · rfl
    · exfalso
      rcases h with h | h | ⟨w, hw, h⟩
      · exact Option.noConfusion h
      · exact Option.noConfusion h
      · rcases Option.some_injective _ hw with rfl
        rcases h with h | h <;> exact Option.noConfusion h

/-- C9 witness: a failed departure-time parse yields the default window. -/
theorem claim_C9_default_window_witness :
    resolve_schedule_window none (some (some 480, some 540)) = (0, 60, 120) :=
  claim_C9_default_window none (some (some 480, some 540)) (Or.inl rfl)

/-! ### Itinerary scoring: src/gcdm/qsi.py (real-valued) -/

/-- Embedding of `qsi.Itinerary` (all fields of the dataclass). -/
structure Itinerary where
  origin_airport : String
  hub : String
  dest : String
  mode_access : String
  block_minutes : ℝ
  layover_minutes : ℝ
  L_star : ℝ
  U_star : ℝ
  sk : ℝ
  tdep_iso : String
  tarr_iso : String
  cancel_rate : ℝ
  inbound_delay_mean : ℝ
  inbound_taxi_in_mean : ℝ
  delay_pos_mean : ℝ
  delay_var : ℝ
  hub_WxRisk : ℝ
  hub_CapacityRisk : ℝ
  reprotect_time_mean : ℝ
  n_alternates_window : ℤ
  seat_pitch : ℝ
  wifi_rel : ℝ
  is_widebody : ℤ
  is_priority : ℤ
  has_lounge : ℤ
  has_precheck : ℤ
  price_mean : ℝ
  price_ancillary : ℝ
  price_rebates : ℝ
  seats_available : ℤ
  dupcount : ℤ
  loadfactor_risk : ℝ
  bag_miss_prob : ℝ
  hub_bank_times : List String

/-- One hub's entry of the raw `hub_risks` dict; each key may be absent, as
the source reads them with `.get(key, default)`. -/
structure HubRiskDict where
  MCT : Option ℝ
  WxRisk : Option ℝ
  CapacityRisk : Option ℝ

/-- Embedding of `config.QSISegment`. -/
structure QSISegment where
  name : String
  weight : ℝ
  beta_P : ℝ
  p_star : ℝ
  seats_threshold : ℤ

/-- The slice of `config.QSIConfig` consumed by the embedded functions. -/
structure QSIConfig where
  betaD : ℝ
  betaV : ℝ
  betaW : ℝ
  betaC : ℝ
  hub_risks : List (String × HubRiskDict)
  segments : List QSISegment

/-- Embedding of `cfg.hub_risks.get(hub, {}).get("MCT", 40)`. -/
noncomputable def hubMCT (cfg : QSIConfig) (hub : String) : ℝ :=
  (((cfg.hub_risks.lookup hub).bind HubRiskDict.MCT).getD 40)

/-- Embedding of `cfg.hub_risks.get(hub, {}).get("WxRisk", 0.2)`. -/
noncomputable def hubWx (cfg : QSIConfig) (hub : String) : ℝ :=
  (((cfg.hub_risks.lookup hub).bind HubRiskDict.WxRisk).getD (2/10))

/-- Embedding of `cfg.hub_risks.get(hub, {}).get("CapacityRisk", 0.3)`. -/
noncomputable def hubCap (cfg : QSIConfig) (hub : String) : ℝ :=
  (((cfg.hub_risks.lookup hub).bind HubRiskDict.CapacityRisk).getD (3/10))

/-- The misconnect-probability expression computed inside
`qsi.reliability_terms`:
`max(0.0, min(1.0, 1.0 - np.exp(-(max(Lk - mct, 0.0)) / 20.0)))`. -/
noncomputable def pi_mis (Lk mct : ℝ) : ℝ :=
  max 0 (min 1 (1 - Real.exp (-(max (Lk - mct) 0) / 20)))

/-- The spec's words for the misconnect probability:
`clip(1 - exp(-(layover - min_connect_time)/20), 0, 1)`. -/
noncomputable def pi_mis_spec (Lk mct : ℝ) : ℝ :=
  max 0 (min 1 (1 - Real.exp (-(Lk - mct) / 20)))

/-- Embedding of `qsi.reliability_terms(cfg, k, Lk, hub)`. -/
noncomputable def reliability_terms (cfg : QSIConfig) (k : Itinerary) (Lk : ℝ) (hub : String) : ℝ :=
  let cancel := 1 - k.cancel_rate
  let mct := hubMCT cfg hub
  let pm := max 0 (min 1 (1 - Real.exp (-(max (Lk - mct) 0) / 20)))
  let rel := cancel * (1 - pm) *
    Real.exp (-cfg.betaD * max k.delay_pos_mean 0 - cfg.betaV * max k.delay_var 0)
  rel * Real.exp (-cfg.betaW * hubWx cfg hub - cfg.betaC * hubCap cfg hub)

/-- Embedding of the dict passed as `state`; only `price_multiplier` is read
by `price_availability`, with `.get("price_multiplier", 1.0)`. -/
structure PriceState where
  price_multiplier : Option ℝ

/-- Embedding of `next((seg.beta_P for seg in cfg.segments if seg.name == s), 0.01)`. -/
noncomputable def seg_beta_P (cfg : QSIConfig) (s : String) : ℝ :=
  ((cfg.segments.find? (fun seg => seg.name == s)).map QSISegment.beta_P).getD (1/100)

/-- Embedding of `next((seg.p_star for seg in cfg.segments if seg.name == s), 300)`. -/
noncomputable def seg_p_star (cfg : QSIConfig) (s : String) : ℝ :=
  ((cfg.segments.find? (fun seg => seg.name == s)).map QSISegment.p_star).getD 300

/-- Embedding of `next((seg.seats_threshold for seg in cfg.segments if seg.name == s), 2)`. -/
def seg_n_req (cfg : QSIConfig) (s : String) : ℤ :=
  ((cfg.segments.find? (fun seg => seg.name == s)).map QSISegment.seats_threshold).getD 2

/-- Embedding of the effective price in `qsi.price_availability`:
`k.price_mean * state.get("price_multiplier", 1.0) + k.price_ancillary - k.price_rebates`. -/
noncomputable def eff_price (k : Itinerary) (state : PriceState) : ℝ :=
  k.price_mean * (state.price_multiplier.getD 1) + k.price_ancillary - k.price_rebates

/-- Embedding of `qsi.price_availability(cfg, k, s, state)`: availability is
1.0 when the effective price is at most the segment reference AND the seat
count meets the threshold, else 0.3; multiplied by the price decay
`exp(-beta_P * eff)`. -/
noncomputable def price_availability (cfg : QSIConfig) (k : Itinerary) (s : String)
    (state : PriceState) : ℝ :=
  let eff := eff_price k state
  let avail : ℝ :=
    if eff ≤ seg_p_star cfg s ∧ seg_n_req cfg s ≤ k.seats_available then 1 else 3/10
  avail * Real.exp (-(seg_beta_P cfg s) * eff)

/-! ### Mode blending: src/gcdm/model.py, softmin -/

/-- Embedding of `model.softmin(values, mu) = -1/mu * ln(sum(exp(-mu*v)))`. -/
noncomputable def softmin (values : List ℝ) (mu : ℝ) : ℝ :=
  -(1 / mu) * Real.log ((values.map (fun v => Real.exp (-(mu * v)))).sum)

/-- The minimum of a list of reals (`min(values)` in the spec), 0 on the
empty list; every claim using it assumes a nonempty list. -/
noncomputable def listMin : List ℝ → ℝ
  | [] => 0
  | x :: xs => xs.foldl min x

/-! ### Claim C1 -/

lemma pi_mis_of_le (Lk mct : ℝ) (h : Lk ≤ mct) : pi_mis Lk mct = 0 := by
  rw [pi_mis, max_eq_right (by linarith : Lk - mct ≤ 0)]
  norm_num

lemma pi_mis_eq_spec (Lk mct : ℝ) : pi_mis Lk mct = pi_mis_spec Lk mct := by
  rcases le_or_lt mct Lk with h | h
  · rw [pi_mis, pi_mis_spec, max_eq_left (sub_nonneg.mpr h)]
  · rw [pi_mis_of_le Lk mct h.le, pi_mis_spec]
    have hexp : 1 < Real.exp (-(Lk - mct) / 20) := by
      rw [Real.one_lt_exp_iff]
      exact div_pos (by linarith) (by norm_num)
    rw [min_eq_right (by linarith), max_eq_left (by linarith)]

open Filter in
lemma pi_mis_tendsto_one (mct : ℝ) :
    Tendsto (fun Lk : ℝ => pi_mis Lk mct) atTop (nhds 1) := by
  have h0 : Tendsto (fun L : ℝ => max (L - mct) 0) atTop atTop :=
    tendsto_atTop_mono (fun L => le_max_left _ _)
      (tendsto_atTop_add_const_right _ _ tendsto_id)
  have h1 : Tendsto (fun L : ℝ => -(max (L - mct) 0) / 20) atTop atBot := by
    have := h0.atTop_mul_const_of_neg (by norm_num : (-1/20 : ℝ) < 0)
    refine this.congr (fun L => ?_)
    ring
  have h2 : Tendsto (fun L : ℝ => Real.exp (-(max (L - mct) 0) / 20)) atTop (nhds 0) :=
    Real.tendsto_exp_atBot.comp h1
  have h3 : Tendsto (fun L : ℝ => 1 - Real.exp (-(max (L - mct) 0) / 20)) atTop (nhds 1) := by
    simpa using tendsto_const_nhds.sub h2
  have h4 := (tendsto_const_nhds (x := (1:ℝ)) (f := atTop)).min h3
  have h5 := (tendsto_const_nhds (x := (0:ℝ)) (f := atTop)).max h4
  simp only [min_self, max_eq_right (by norm_num : (0:ℝ) ≤ 1)] at h5
  exact h5

/-- C1 counterexample: with the default minimum connect time 40 and layover
0 (strictly below the MCT), the misconnect probability computed inside
`reliability_terms` is 0, not 1: the probability does NOT saturate at 1 as
the layover shrinks below the minimum connect time. -/
theorem claim_C1_counterexample :
    (0:ℝ) < 40 ∧ pi_mis 0 40 = 0 ∧ pi_mis 0 40 ≠ 1 := by
  have h0 : pi_mis 0 40 = 0 := pi_mis_of_le 0 40 (by norm_num)
  exact ⟨by norm_num, h0, by rw [h0]; norm_num⟩

/-- C1 amended: inside `reliability_terms` the misconnect probability is
exactly the spec's `clip(1 - exp(-(layover - min_connect_time)/20), 0, 1)`;
it equals 0 whenever the layover is at or below the hub's minimum connect
time, and it saturates at 1 as the layover GROWS without bound (not as it
shrinks below the minimum connect time). -/
theorem claim_C1_amended :
    (∀ (cfg : QSIConfig) (k : Itinerary) (Lk : ℝ) (hub : String),
      reliability_terms cfg k Lk hub =
        (1 - k.cancel_rate) * (1 - pi_mis Lk (hubMCT cfg hub)) *
          Real.exp (-cfg.betaD * max k.delay_pos_mean 0 - cfg.betaV * max k.delay_var 0) *
          Real.exp (-cfg.betaW * hubWx cfg hub - cfg.betaC * hubCap cfg hub)) ∧
    (∀ Lk mct : ℝ, pi_mis Lk mct = pi_mis_spec Lk mct) ∧
    (∀ Lk mct : ℝ, Lk ≤ mct → pi_mis Lk mct = 0) ∧
    (∀ mct : ℝ, Filter.Tendsto (fun Lk : ℝ => pi_mis Lk mct) Filter.atTop (nhds 1)) :=
  ⟨fun _ _ _ _ => rfl, pi_mis_eq_spec, pi_mis_of_le, pi_mis_tendsto_one⟩

/-- C1 amended, witness: the zero-below-MCT conjunct instantiated at layover
30 and minimum connect time 40. -/
theorem claim_C1_amended_witness : pi_mis 30 40 = 0 :=
  claim_C1_amended.2.2.1 30 40 (by norm_num)

/-! ### Claim C5 -/

lemma price_availability_pos (cfg : QSIConfig) (k : Itinerary) (s : String) (st : PriceState) :
    0 < price_availability cfg k s st := by
  rw [price_availability]
  apply mul_pos
  · split <;> norm_num
  · exact Real.exp_pos _

lemma price_availability_below (cfg : QSIConfig) (k : Itinerary) (s : String) (st : PriceState)
    (h : k.seats_available < seg_n_req cfg s) :
    price_availability cfg k s st = 3/10 * Real.exp (-(seg_beta_P cfg s) * eff_price k st) := by
  rw [price_availability, if_neg (fun hc => absurd hc.2 (not_le.mpr h))]

/-- Concrete fare segment used by the C5 counterexample: name "main",
beta_P = 0.01, reference price 300, seat threshold 2. -/
noncomputable def seg0 : QSISegment := ⟨"main", 1, 1/100, 300, 2⟩

/-- Concrete QSI configuration holding only segment `seg0`. -/
noncomputable def qsiCfg0 : QSIConfig := ⟨1/100, 1/1000, 1/10, 1/10, [], [seg0]⟩

/-- Price/demand state with no price multiplier entry (defaults to 1.0). -/
def st0 : PriceState := ⟨none⟩

/-- Concrete itinerary with zero available seats (below the threshold 2),
price 100 (below the reference 300) and no ancillary/rebate adjustments. -/
noncomputable def k0 : Itinerary :=
  ⟨"HVN", "PHL", "LAX", "drive", 120, 45, 45, 90, 0,
    "2025-01-01T08:00:00", "2025-01-01T12:00:00",
    1/50, 10, 5, 10, 25, 1/5, 3/10, 60, 2, 31, 9/10,
    0, 0, 0, 0, 100, 0, 0, 0, 1, 1/10, 1/100, []⟩

/-- C5 counterexample: itinerary `k0` has fewer available seats (0) than the
segment threshold (2), yet `price_availability` is strictly positive — the
seat shortfall multiplies the weight by 0.3 instead of hard-gating it to
zero. -/
theorem claim_C5_counterexample :
    k0.seats_available < seg_n_req qsiCfg0 "main" ∧
    0 < price_availability qsiCfg0 k0 "main" st0 :=
  ⟨by decide, price_availability_pos qsiCfg0 k0 "main" st0⟩

/-- C5 amended: when the itinerary's available seats are below the segment's
seat threshold, `price_availability` multiplies the weight by the soft
availability factor 0.3 (times the price decay `exp(-beta_P · eff)`) rather
than hard-gating it to zero; the result is strictly positive for every
itinerary, segment and state, and price above the segment reference likewise
only contributes the soft exponential decay. -/
theorem claim_C5_amended :
    ∀ (cfg : QSIConfig) (k : Itinerary) (s : String) (st : PriceState),
      (k.seats_available < seg_n_req cfg s →
        price_availability cfg k s st =
          3/10 * Real.exp (-(seg_beta_P cfg s) * eff_price k st)) ∧
      0 < price_availability cfg k s st :=
  fun cfg k s st =>
    ⟨fun h => price_availability_below cfg k s st h, price_availability_pos cfg k s st⟩

/-- C5 amended, witness: the soft 0.3 branch and positivity instantiated at
the concrete zero-seat itinerary `k0`. -/
theorem claim_C5_amended_witness :
    price_availability qsiCfg0 k0 "main" st0 =
      3/10 * Real.exp (-(seg_beta_P qsiCfg0 "main") * eff_price k0 st0) ∧
    0 < price_availability qsiCfg0 k0 "main" st0 :=
  ⟨(claim_C5_amended qsiCfg0 k0 "main" st0).1 (by decide),
    (claim_C5_amended qsiCfg0 k0 "main" st0).2⟩

/-! ### Claim C3 -/

lemma foldl_min_le_init (a : ℝ) (xs : List ℝ) : xs.foldl min a ≤ a := by
  induction xs generalizing a with
  | nil => exact le_rfl
  | cons y ys ih => exact le_trans (ih (min a y)) (min_le_left a y)

lemma foldl_min_le_mem (xs : List ℝ) (x : ℝ) (hx : x ∈ xs) (a : ℝ) : xs.foldl min a ≤ x := by
  induction xs generalizing a with
  | nil => cases hx
  | cons y ys ih =>
    rcases List.mem_cons.1 hx with rfl | hx₂
    · exact le_trans (foldl_min_le_init (min a x) ys) (min_le_right a x)
    · exact ih hx₂ (min a y)

lemma foldl_min_mem (xs : List ℝ) (a : ℝ) : xs.foldl min a ∈ a :: xs := by
  induction xs generalizing a with
  | nil => exact List.mem_singleton.2 rfl
  | cons y ys ih =>
    rcases List.mem_cons.1 (ih (min a y)) with h | h
    · rcases min_choice a y with hm | hm
      · exact List.mem_cons.2 (Or.inl (h.trans hm))
      · exact List.mem_cons.2 (Or.inr (List.mem_cons.2 (Or.inl (h.trans hm))))
    · exact List.mem_cons.2 (Or.inr (List.mem_cons.2 (Or.inr h)))

lemma listMin_le (l : List ℝ) : ∀ x ∈ l, listMin l ≤ x := by
  rcases l with _ | ⟨a, xs⟩
  · intro x hx; cases hx
  · intro x hx
    rcases List.mem_cons.1 hx with rfl | hx₂
    · exact foldl_min_le_init x xs
    · exact foldl_min_le_mem xs x hx₂ a

lemma listMin_mem (l : List ℝ) (hl : l ≠ []) : listMin l ∈ l := by
  rcases l with _ | ⟨a, xs⟩
  · exact absurd rfl hl
  · exact foldl_min_mem xs a

lemma softmin_bounds (l : List ℝ) (hne : l ≠ []) (mu : ℝ) (hmu : 0 < mu) :
    listMin l - Real.log l.length / mu ≤ softmin l mu ∧ softmin l mu ≤ listMin l := by
  set m := listMin l with hm
  set S := (l.map fun v => Real.exp (-(mu * v))).sum with hSdef
  have hsoft : softmin l mu = -Real.log S / mu := by
    rw [softmin]; ring
  have hnn : ∀ x ∈ l.map fun v => Real.exp (-(mu * v)), 0 ≤ x := by
    intro x hx
    obtain ⟨v, _, rfl⟩ := List.mem_map.1 hx
    exact (Real.exp_pos _).le
  have hmem : Real.exp (-(mu * m)) ∈ l.map fun v => Real.exp (-(mu * v)) :=
    List.mem_map_of_mem _ (listMin_mem l hne)
  have hS_ge : Real.exp (-(mu * m)) ≤ S := List.single_le_sum hnn _ hmem
  have hS_pos : 0 < S := lt_of_lt_of_le (Real.exp_pos _) hS_ge
  have hlog_ge : -(mu * m) ≤ Real.log S := by
    have h := Real.log_le_log (Real.exp_pos _) hS_ge
    rwa [Real.log_exp] at h
  have hub : ∀ x ∈ l.map fun v => Real.exp (-(mu * v)), x ≤ Real.exp (-(mu * m)) := by
    intro x hx
    obtain ⟨v, hv, rfl⟩ := List.mem_map.1 hx
    have hmv : mu * m ≤ mu * v := mul_le_mul_of_nonneg_left (listMin_le l v hv) hmu.le
    exact Real.exp_le_exp.2 (by linarith)
  have hS_le : S ≤ (l.length : ℝ) * Real.exp (-(mu * m)) := by
    have h := List.sum_le_card_nsmul (l.map fun v => Real.exp (-(mu * v))) _ hub
    rwa [List.length_map, nsmul_eq_mul] at h
  have hn_pos : (0:ℝ) < l.length := by
    have hlen : l.length ≠ 0 := fun h => hne (List.length_eq_zero.1 h)
    exact_mod_cast Nat.pos_of_ne_zero hlen
  have hlog_le : Real.log S ≤ Real.log l.length - mu * m := by
    have h := Real.log_le_log hS_pos hS_le
    rwa [Real.log_mul hn_pos.ne' (Real.exp_ne_zero _), Real.log_exp, ← sub_eq_add_neg] at h
  constructor
  · rw [hsoft, le_div_iff₀ hmu]
    have hc : Real.log l.length / mu * mu = Real.log l.length :=
      div_mul_cancel₀ _ hmu.ne'
    nlinarith [hlog_le, hc]
  · rw [hsoft, div_le_iff₀ hmu]
    linarith [hlog_ge]

open Filter in
/-- C3: for every nonempty list of values and every mu > 0,
`softmin(values, mu) ≤ min(values)`, and `softmin(values, mu)` converges to
`min(values)` as mu tends to infinity. -/
theorem claim_C3_softmin (values : List ℝ) (hne : values ≠ []) :
    (∀ mu : ℝ, 0 < mu → softmin values mu ≤ listMin values) ∧
    Tendsto (fun mu => softmin values mu) atTop (nhds (listMin values)) := by
  refine ⟨fun mu hmu => (softmin_bounds values hne mu hmu).2, ?_⟩
  have hlow : Tendsto (fun mu : ℝ => listMin values - Real.log values.length / mu)
      atTop (nhds (listMin values)) := by
    have h := (tendsto_const_nhds (x := Real.log values.length) (f := atTop)).div_atTop
      (tendsto_id (α := ℝ))
    simpa using tendsto_const_nhds.sub h
  refine tendsto_of_tendsto_of_tendsto_of_le_of_le' hlow tendsto_const_nhds ?_ ?_
  · filter_upwards [eventually_gt_atTop 0] with mu hmu
    exact (softmin_bounds values hne mu hmu).1
  · filter_upwards [eventually_gt_atTop 0] with mu hmu
    exact (softmin_bounds values hne mu hmu).2

/-- C3 witness: both conjuncts instantiated on the nonempty list `[0, 7]`
with mu = 1. -/
theorem claim_C3_softmin_witness :
    softmin [0, 7] 1 ≤ listMin [0, 7] ∧
    Filter.Tendsto (fun mu => softmin [0, 7] mu) Filter.atTop (nhds (listMin [0, 7])) :=
  ⟨(claim_C3_softmin [0, 7] (List.cons_ne_nil 0 [7])).1 1 one_pos,
    (claim_C3_softmin [0, 7] (List.cons_ne_nil 0 [7])).2⟩

end GCDM
